import Mathlib

/-!
A verification development for the resource-manager core of the Peloton
workload orchestrator.  Go source files are shallowly embedded as pure Lean
functions: machine integers become `Nat`, protobuf pointer fields become
`Option`, fallible operations return `Except`, and the mutable task cache is
threaded as explicit state.  Components whose implementation is not part of
the source snapshot (only their tests or callers are) are modelled from the
specification and marked as such in their doc comments.
-/

set_option maxRecDepth 4000

deriving instance DecidableEq for Except

namespace Cached

/-- Task states, from the `peloton.api.v0.task` protobuf enum used by
`jobmgr/cached/task.go`. -/
inductive TaskState where
  | UNKNOWN
  | INITIALIZED
  | PENDING
  | READY
  | PLACING
  | PLACED
  | LAUNCHING
  | LAUNCHED
  | STARTING
  | RUNNING
  | SUCCEEDED
  | KILLING
  | KILLED
  | FAILED
  | LOST
  | PREEMPTING
  | RESERVED
deriving DecidableEq

/-- `resMgrOwnedTaskStates` from `jobmgr/cached`: states in which a task is
waiting for admission, being placed or being preempted. -/
def IsResMgrOwnedState (s : TaskState) : Bool :=
  match s with
  | .PENDING | .READY | .PLACING | .PLACED | .LAUNCHING | .PREEMPTING => true
  | _ => false

/-- `mesosOwnedTaskStates` from `jobmgr/cached`: states reached through an
event in the event stream from mesos. -/
def IsMesosOwnedState (s : TaskState) : Bool :=
  match s with
  | .STARTING | .RUNNING | .SUCCEEDED | .FAILED | .LOST | .KILLED => true
  | _ => false

/-- Modelled from the spec: `util.IsPelotonStateTerminal` is not part of the
source snapshot; the spec declares the terminal task states to be
SUCCEEDED, FAILED and KILLED. -/
def IsPelotonStateTerminal (s : TaskState) : Bool :=
  match s with
  | .SUCCEEDED | .FAILED | .KILLED => true
  | _ => false

/-- `uuidLength = len(uuid.New())`: a textual UUID has 36 characters. -/
def uuidLength : Nat := 36

/-- Split a character list on the dash character, mirroring
`strings.Split(s, "-")`: always returns at least one (possibly empty)
segment. -/
def splitDash : List Char → List (List Char)
  | [] => [[]]
  | c :: rest =>
    if c = '-' then [] :: splitDash rest
    else
      match splitDash rest with
      | [] => [[c]]
      | seg :: segs => (c :: seg) :: segs

/-- Parse a non-empty all-digit character list as a decimal number,
mirroring `strconv.ParseUint(s, 10, 32)` up to the 32-bit range check. -/
def digitsToNat : List Char → Option Nat
  | [] => none
  | cs =>
    if cs.all Char.isDigit then
      some (cs.foldl (fun acc c => acc * 10 + (c.toNat - 48)) 0)
    else none

/-- Modelled from the spec: `util.ParseRunID` is not part of the source
snapshot.  A mesos task id has the form `jobID-instance-runID`; the run id is
the decimal number after the last dash (spec: a fresh run-id is monotonically
increasing and recorded on retry), rejected when it does not fit 32 bits. -/
def ParseRunID (s : String) : Option Nat :=
  match digitsToNat ((splitDash s.data).getLastD []) with
  | some n => if n < 4294967296 then some n else none
  | none => none

/-- `validateMesosTaskID` from `jobmgr/cached/task.go`: whether `newRunID` is
greater than or equal to the current run id; both ids longer than two UUIDs
are legacy-format and accepted unconditionally. -/
def validateMesosTaskID (mesosTaskID prevMesosTaskID : String) : Bool :=
  if mesosTaskID.data.length > 2 * uuidLength ∧
      prevMesosTaskID.data.length > 2 * uuidLength then true
  else
    match ParseRunID mesosTaskID with
    | none => false
    | some newRunID =>
      match ParseRunID prevMesosTaskID with
      | none => decide (prevMesosTaskID.data.length > 2 * uuidLength)
      | some currentRunID => decide (newRunID ≥ currentRunID)

/-- `peloton.ChangeLog`: the revision attached to a task runtime. -/
structure ChangeLog where
  version : Nat
  createdAt : Nat
  updatedAt : Nat
deriving DecidableEq

/-- The fields of `pbtask.RuntimeInfo` read or written by
`jobmgr/cached/task.go`.  Pointer-valued protobuf fields are `Option`. -/
structure RuntimeInfo where
  state : TaskState
  goalState : TaskState
  mesosTaskId : Option String
  desiredMesosTaskId : Option String
  prevMesosTaskId : Option String
  configVersion : Nat
  desiredConfigVersion : Nat
  revision : Option ChangeLog
  message : String
  reason : String
deriving DecidableEq

/-- Protobuf nil-safe getter: `GetValue` of an optional id. -/
def getValue (o : Option String) : String := o.getD ""

/-- Protobuf nil-safe getter: `GetState` of an optional runtime. -/
def getState (o : Option RuntimeInfo) : TaskState :=
  match o with
  | some r => r.state
  | none => .UNKNOWN

/-- Protobuf nil-safe getter: `GetMesosTaskId` of an optional runtime. -/
def getMesosTaskId (o : Option RuntimeInfo) : Option String :=
  match o with
  | some r => r.mesosTaskId
  | none => none

/-- Protobuf nil-safe getter: `GetDesiredMesosTaskId` of an optional
runtime. -/
def getDesiredMesosTaskId (o : Option RuntimeInfo) : Option String :=
  match o with
  | some r => r.desiredMesosTaskId
  | none => none

/-- Protobuf nil-safe getter: `GetVersion` of an optional revision. -/
def getVersion (o : Option ChangeLog) : Nat :=
  match o with
  | some c => c.version
  | none => 0

/-- Protobuf nil-safe getter: `GetRevision` of an optional runtime. -/
def getRevision (o : Option RuntimeInfo) : Option ChangeLog :=
  match o with
  | some r => r.revision
  | none => none

/-- `(t *task).validateState` from `jobmgr/cached/task.go`: whether the
transition from `currentRuntime` (the cached runtime) to `newRuntime` is
valid. -/
def validateState (currentRuntime newRuntime : Option RuntimeInfo) : Bool :=
  match newRuntime with
  | none => false
  | some newR =>
    if newR.mesosTaskId.isSome ∧
        getValue (getMesosTaskId currentRuntime) ≠ getValue newR.mesosTaskId
    then
      -- the mesos task id has changed: the run id must not decrease and the
      -- new state must be INITIALIZED
      if ¬ validateMesosTaskID (getValue newR.mesosTaskId)
          (getValue (getMesosTaskId currentRuntime)) then false
      else decide (newR.state = .INITIALIZED)
    else
      -- the desired mesos task id must never have its run id decrease
      if newR.desiredMesosTaskId.isSome ∧
          ¬ validateMesosTaskID (getValue newR.desiredMesosTaskId)
            (getValue (getDesiredMesosTaskId currentRuntime)) then false
      else if newR.state = getState currentRuntime then true
      else if IsPelotonStateTerminal (getState currentRuntime) then false
      else if IsMesosOwnedState newR.state ∧
          (IsMesosOwnedState (getState currentRuntime) ∨
            IsResMgrOwnedState (getState currentRuntime) ∨
            getState currentRuntime = .INITIALIZED ∨
            getState currentRuntime = .LAUNCHED ∨
            (IsPelotonStateTerminal newR.state ∧
              getState currentRuntime = .KILLING)) then true
      else if IsResMgrOwnedState newR.state ∧
          (IsResMgrOwnedState (getState currentRuntime) ∨
            getState currentRuntime = .INITIALIZED) then true
      else if newR.state = .LAUNCHED ∧
          (IsResMgrOwnedState (getState currentRuntime) ∨
            getState currentRuntime = .INITIALIZED) then true
      else if newR.state = .KILLING then true
      else false

/-- A `jobmgrcommon.RuntimeDiff` restricted to the runtime fields the cache
embedding carries; a `some` field is present in the diff map. -/
structure RuntimeDiff where
  state : Option TaskState := none
  mesosTaskId : Option String := none
  desiredMesosTaskId : Option String := none
  prevMesosTaskId : Option String := none
  message : Option String := none
  reason : Option String := none
  revision : Option ChangeLog := none
deriving DecidableEq

/-- `patch(runtime, diff)`: apply every field present in the diff to the
runtime. -/
def patch (r : RuntimeInfo) (d : RuntimeDiff) : RuntimeInfo :=
  { r with
    state := d.state.getD r.state
    mesosTaskId := match d.mesosTaskId with
      | some v => some v
      | none => r.mesosTaskId
    desiredMesosTaskId := match d.desiredMesosTaskId with
      | some v => some v
      | none => r.desiredMesosTaskId
    prevMesosTaskId := match d.prevMesosTaskId with
      | some v => some v
      | none => r.prevMesosTaskId
    message := d.message.getD r.message
    reason := d.reason.getD r.reason
    revision := match d.revision with
      | some v => some v
      | none => r.revision }

/-- The mutable state of one cached task together with its persisted runtime
row: `cache` is `t.runtime`, `stored` is the task store row that
`UpdateTaskRuntime` writes and `GetTaskRuntime` reads. -/
structure TaskCache where
  cache : Option RuntimeInfo
  stored : RuntimeInfo
deriving DecidableEq

/-- The structured errors surfaced by the cached-task operations. -/
inductive CachedErr where
  | invalidArgument
deriving DecidableEq

/-- `(t *task).PatchRuntime` from `jobmgr/cached/task.go` with an
always-available store.  A nil diff or a diff carrying the Revision field is
an invalid-argument error; the cache is reloaded from the store when empty;
an invalid patched state is ignored (no store write, cache untouched);
otherwise the revision version is bumped (the copied runtime aliases the
cached runtime's ChangeLog pointer, so a nil revision stays nil) and the
patched runtime is written to the store and the cache. -/
def PatchRuntime (t : TaskCache) (diff : Option RuntimeDiff) (now : Nat) :
    Except CachedErr TaskCache :=
  match diff with
  | none => .error .invalidArgument
  | some d =>
    if d.revision.isSome then .error .invalidArgument
    else
      let cur := t.cache.getD t.stored
      let newR := patch cur d
      if ¬ validateState (some cur) (some newR) then
        .ok { cache := some cur, stored := t.stored }
      else
        let final : RuntimeInfo :=
          { newR with revision := cur.revision.map fun rev =>
              { rev with version := rev.version + 1, updatedAt := now } }
        .ok { cache := some final, stored := final }

/-- `(t *task).ReplaceRuntime` from `jobmgr/cached/task.go`: replace the
cached runtime when forced, when the cache is empty, or when the incoming
revision version is strictly higher; reject a nil runtime or nil revision. -/
def ReplaceRuntime (t : TaskCache) (runtime : Option RuntimeInfo)
    (forceReplace : Bool) : Except CachedErr TaskCache :=
  match runtime with
  | none => .error .invalidArgument
  | some r =>
    if r.revision.isNone then .error .invalidArgument
    else if forceReplace ∨ t.cache.isNone ∨
        getVersion r.revision > getVersion (getRevision t.cache) then
      .ok { t with cache := some r }
    else .ok t

/-- A runtime in a terminal state with no desired mesos task id, used to
instantiate the terminal-overwrite clause. -/
def terminalRuntime : RuntimeInfo :=
  { state := .SUCCEEDED
    goalState := .SUCCEEDED
    mesosTaskId := some ("a-0-1")
    desiredMesosTaskId := none
    prevMesosTaskId := none
    configVersion := 1
    desiredConfigVersion := 1
    revision := some { version := 3, createdAt := 0, updatedAt := 0 }
    message := ""
    reason := "" }

/-- A diff that tries to move a terminal task back to RUNNING without
touching its mesos task id. -/
def terminalOverwriteDiff : RuntimeDiff := { state := some .RUNNING }

/-- A running task whose desired mesos task id is at run 5. -/
def runC6 : RuntimeInfo :=
  { state := .RUNNING
    goalState := .SUCCEEDED
    mesosTaskId := some ("a-0-1")
    desiredMesosTaskId := some ("a-0-5")
    prevMesosTaskId := none
    configVersion := 1
    desiredConfigVersion := 1
    revision := some { version := 3, createdAt := 0, updatedAt := 0 }
    message := ""
    reason := "" }

/-- An update of `runC6` that starts a new run (mesos task id run 1 to run 2,
state INITIALIZED) while simultaneously dropping the desired mesos task id
from run 5 to run 3. -/
def newRunC6 : RuntimeInfo :=
  { state := .INITIALIZED
    goalState := .SUCCEEDED
    mesosTaskId := some ("a-0-2")
    desiredMesosTaskId := some ("a-0-3")
    prevMesosTaskId := some ("a-0-1")
    configVersion := 1
    desiredConfigVersion := 1
    revision := some { version := 3, createdAt := 0, updatedAt := 0 }
    message := ""
    reason := "" }

/-- A running task at revision version 3, used to instantiate the revision
theorems. -/
def runC10 : RuntimeInfo :=
  { state := .RUNNING
    goalState := .SUCCEEDED
    mesosTaskId := some ("a-0-1")
    desiredMesosTaskId := none
    prevMesosTaskId := none
    configVersion := 1
    desiredConfigVersion := 1
    revision := some { version := 3, createdAt := 0, updatedAt := 7 }
    message := ""
    reason := "" }

/-- `runC6` with only its desired mesos task id changed, dropping the
desired run id from 5 to 3 while the mesos task id and state are
unchanged. -/
def desiredDropC6 : RuntimeInfo :=
  { runC6 with desiredMesosTaskId := some ("a-0-3") }

/-- A diff recording that `runC10` succeeded. -/
def succeededDiff : RuntimeDiff := { state := some .SUCCEEDED }

end Cached

namespace Goalstate

/-- The mesos task status reasons the retry handler inspects. -/
inductive MesosReason where
  | REASON_CONTAINER_LAUNCH_FAILED
  | REASON_COMMAND_EXECUTOR_FAILED
  | REASON_AGENT_REMOVED
  | OTHER
deriving DecidableEq

/-- A mesos task id decomposed into its job prefix, instance index and
run id (`jobID-instance-runID`). -/
structure MesosTaskID where
  jobId : String
  instanceIdx : Nat
  runId : Nat
deriving DecidableEq

/-- The message mesos attaches to a command-executor failure caused by the
executor itself. -/
def brokenPipeMessage : String := "Container terminated with signal Broken pipe"

/-- The task-runtime fields the fail-retry handler reads. -/
structure RetryRuntime where
  state : Cached.TaskState
  mesosTaskId : MesosTaskID
  reason : MesosReason
  message : String
  failureCount : Nat
deriving DecidableEq

/-- `RestartPolicy` of a task configuration. -/
structure RestartPolicy where
  maxFailures : Nat
deriving DecidableEq

/-- Modelled from the spec: `util.IsSystemFailure` is not part of the source
snapshot.  Certain fabric reasons are classified as system failures:
container-launch-failed always, and command-executor-failed when the message
reports the executor broke (the repository's retry tests pin that a plain
command-executor failure message is not a system failure). -/
def IsSystemFailure (r : RetryRuntime) : Bool :=
  r.reason = .REASON_CONTAINER_LAUNCH_FAILED ∨
    (r.reason = .REASON_COMMAND_EXECUTOR_FAILED ∧
      decide (List.IsInfix brokenPipeMessage.data r.message.data))

/-- Modelled from the spec: system failures always retry once regardless of
the restart policy. -/
def MaxSystemFailureAttempts : Nat := 1

/-- The runtime diff produced when a failed task is rescheduled: a fresh
mesos task id (new run), the previous mesos task id, and the initial state
for re-admission. -/
structure RetryDiff where
  mesosTaskId : MesosTaskID
  prevMesosTaskId : MesosTaskID
  state : Cached.TaskState
deriving DecidableEq

/-- The reschedule patch for one task: a fresh mesos task id with the run id
incremented, the previous mesos task id recorded, and the state reset to
INITIALIZED. -/
def rescheduleDiff (m : MesosTaskID) : RetryDiff :=
  { mesosTaskId := { m with runId := m.runId + 1 }
    prevMesosTaskId := m
    state := .INITIALIZED }

/-- Modelled from the spec: `TaskFailRetry` is not part of the source
snapshot (only its tests are).  A failed or lost task is rescheduled while
its failure count is below the policy's MaxFailures, raised to the
system-failure floor of one retry when the failure is a system failure; the
reschedule patch starts a new run: a fresh mesos task id with the run id
incremented, the previous mesos task id recorded, and the state reset to
INITIALIZED. -/
def TaskFailRetry (r : RetryRuntime) (policy : RestartPolicy) :
    Option RetryDiff :=
  let maxAttempts :=
    if IsSystemFailure r then max policy.maxFailures MaxSystemFailureAttempts
    else policy.maxFailures
  if r.failureCount < maxAttempts then some (rescheduleDiff r.mesosTaskId)
  else none

/-- A freshly failed container-launch runtime at run 1. -/
def launchFailedRuntime : RetryRuntime :=
  { state := .FAILED
    mesosTaskId := { jobId := "job0", instanceIdx := 0, runId := 1 }
    reason := .REASON_CONTAINER_LAUNCH_FAILED
    message := "testFailure"
    failureCount := 0 }

/-- A failed runtime whose reason is not classified as a system failure. -/
def plainFailedRuntime : RetryRuntime :=
  { state := .FAILED
    mesosTaskId := { jobId := "job0", instanceIdx := 0, runId := 1 }
    reason := .REASON_COMMAND_EXECUTOR_FAILED
    message := "testFailure"
    failureCount := 0 }

end Goalstate

namespace Respool

/-- A per-kind resource vector (cpu, memory, disk, gpu); the Go code uses
float64, which only ever holds integral values in the scenarios under
verification, embedded as integers. -/
structure Resources where
  cpu : Int
  memory : Int
  disk : Int
  gpu : Int
deriving DecidableEq

/-- The zero resource vector. -/
def Resources.zero : Resources := ⟨0, 0, 0, 0⟩

/-- Componentwise addition of resource vectors. -/
def Resources.add (a b : Resources) : Resources :=
  ⟨a.cpu + b.cpu, a.memory + b.memory, a.disk + b.disk, a.gpu + b.gpu⟩

/-- Componentwise comparison of resource vectors. -/
def Resources.le (a b : Resources) : Prop :=
  a.cpu ≤ b.cpu ∧ a.memory ≤ b.memory ∧ a.disk ≤ b.disk ∧ a.gpu ≤ b.gpu

instance (a b : Resources) : Decidable (Resources.le a b) := by
  unfold Resources.le; infer_instance

/-- A task as seen by the resource manager (`resmgr.Task`): name, ids,
priority and resource demand. -/
structure RmTask where
  name : String
  jobId : String
  taskId : String
  priority : Nat
  demand : Resources
deriving DecidableEq

/-- A gang: one or more tasks admitted and placed atomically. -/
def Gang := List RmTask
deriving DecidableEq

/-- The aggregate resource demand of a gang. -/
def gangDemand (g : Gang) : Resources :=
  g.foldl (fun acc t => acc.add t.demand) Resources.zero

/-- The priority of a gang: the priority of its first task (gangs are
homogeneous in priority). -/
def gangPriority (g : Gang) : Nat :=
  match g with
  | [] => 0
  | t :: _ => t.priority

/-- One pending-queue entry: a gang tagged with its priority and enqueue
time. -/
structure QueueItem where
  gang : Gang
  priority : Nat
  enqueueTime : Nat
deriving DecidableEq

/-- Modelled from the spec: the default priority-FIFO pending queue orders
gangs by descending priority with ties broken by ascending enqueue time; a
new item is placed after every item of greater or equal priority. -/
def enqueueItem : List QueueItem → QueueItem → List QueueItem
  | [], it => [it]
  | x :: xs, it =>
    if it.priority > x.priority then it :: x :: xs
    else x :: enqueueItem xs it

/-- The aggregate demand of all gangs waiting in a queue. -/
def totalDemand (q : List QueueItem) : Resources :=
  q.foldr (fun it acc => (gangDemand it.gang).add acc) Resources.zero

/-- The priority-FIFO queue order: higher priority first, ties in enqueue
order. -/
def pfifoLe (a b : QueueItem) : Prop :=
  a.priority > b.priority ∨
    (a.priority = b.priority ∧ a.enqueueTime ≤ b.enqueueTime)

instance (a b : QueueItem) : Decidable (pfifoLe a b) := by
  unfold pfifoLe; infer_instance

/-- A queue is priority-FIFO ordered when consecutive-or-later entries are
related by the queue order. -/
def pfifoOrdered (q : List QueueItem) : Prop := q.Pairwise pfifoLe

instance (q : List QueueItem) : Decidable (pfifoOrdered q) := by
  unfold pfifoOrdered; infer_instance

/-- Modelled from the spec: dequeue walks the queue in order and returns up
to `lim` gangs whose aggregate demand (on top of `used`) still fits within
the entitlement `ent`; gangs that do not fit are skipped but not removed. -/
def dequeueAux (ent : Resources) :
    Resources → Nat → List QueueItem → List QueueItem × List QueueItem
  | _, _, [] => ([], [])
  | used, lim, it :: rest =>
    if lim = 0 then ([], it :: rest)
    else
      if Resources.le (used.add (gangDemand it.gang)) ent then
        let r := dequeueAux ent (used.add (gangDemand it.gang)) (lim - 1) rest
        (it :: r.1, r.2)
      else
        let r := dequeueAux ent used lim rest
        (r.1, it :: r.2)

/-- The scheduling policies of the `respool` protobuf; an unset policy is
rejected at upsert with an invalid-queue-type error. -/
inductive Policy where
  | PriorityFIFO
deriving DecidableEq

/-- A per-kind resource configuration (`respool.ResourceConfig`). -/
structure ResourceConfig where
  kind : String
  reservation : Int
  limit : Int
  share : Int
deriving DecidableEq

/-- A resource pool configuration (`respool.ResourcePoolConfig`). -/
structure ResPoolConfig where
  name : String
  parent : Option String
  resources : List ResourceConfig
  policy : Option Policy
deriving DecidableEq

/-- One node of the resource pool tree: its configuration, ordered children,
pending queue and entitlement/allocation bookkeeping. -/
structure PoolNode where
  config : ResPoolConfig
  children : List String
  queue : List QueueItem
  entitlement : Resources
  allocation : Resources
deriving DecidableEq

/-- The resource pool tree: pools stored by id (arena of nodes referring to
each other by id) together with the enqueue-time counter. -/
structure Tree where
  pools : List (String × PoolNode)
  clock : Nat
deriving DecidableEq

/-- The id of the implicit root pool, never stored in the database. -/
def RootResPoolID : String := "root"

/-- Look a pool up by id. -/
def lookupPool : List (String × PoolNode) → String → Option PoolNode
  | [], _ => none
  | (k, v) :: rest, id => if k = id then some v else lookupPool rest id

/-- Replace the node stored under an id (no-op when the id is absent). -/
def setPool : List (String × PoolNode) → String → PoolNode →
    List (String × PoolNode)
  | [], _, _ => []
  | (k, v) :: rest, id, n =>
    if k = id then (k, n) :: rest else (k, v) :: setPool rest id n

/-- Look a pool up in a tree. -/
def getPool (t : Tree) (id : String) : Option PoolNode := lookupPool t.pools id

/-- Only leaf pools (no children) may hold tasks. -/
def isLeaf (n : PoolNode) : Bool := n.children.isEmpty

/-- Structured errors of the pool-tree operations. -/
inductive RespoolErr where
  | poolNotFound (id : String)
  | notALeaf (id : String)
  | invalidQueueType (id : String)
  | unresolvedParent (id : String)
  | reservationExceedsParent (id : String)
  | invalidPoolId (id : String)
deriving DecidableEq

/-- Modelled from the spec: `EnqueueGang` on a leaf appends the gang to the
pool's pending queue at the current clock tick; on a non-leaf it fails with
the pool-not-leaf error and the tree is unchanged. -/
def EnqueueGang (t : Tree) (id : String) (g : Gang) :
    Except RespoolErr Tree :=
  match getPool t id with
  | none => .error (.poolNotFound id)
  | some n =>
    if isLeaf n then
      let it : QueueItem :=
        { gang := g
          priority := gangPriority g
          enqueueTime := t.clock }
      .ok { pools := setPool t.pools id { n with queue := enqueueItem n.queue it }
            clock := t.clock + 1 }
    else .error (.notALeaf id)

/-- Modelled from the spec: `DequeueGangList` on a leaf returns up to `lim`
gangs whose aggregate demand fits within the pool's entitlement minus its
allocation, in priority-FIFO queue order, removing them from the queue;
non-fitting gangs are skipped but kept. -/
def DequeueGangList (t : Tree) (id : String) (lim : Nat) :
    Except RespoolErr (List Gang × Tree) :=
  match getPool t id with
  | none => .error (.poolNotFound id)
  | some n =>
    if isLeaf n then
      let r := dequeueAux n.entitlement n.allocation lim n.queue
      .ok (r.1.map (·.gang),
        { t with pools := setPool t.pools id { n with queue := r.2 } })
    else .error (.notALeaf id)

/-- The reservation of a kind in a resource config list (0 when the kind is
absent). -/
def reservationOf (rs : List ResourceConfig) (k : String) : Int :=
  match rs.find? (fun rc => rc.kind = k) with
  | some rc => rc.reservation
  | none => 0

/-- The four resource kinds. -/
def kinds : List String := ["cpu", "memory", "disk", "gpu"]

/-- The reservation a pool id contributes for a kind (0 when unknown). -/
def poolReservation (t : Tree) (c : String) (k : String) : Int :=
  match getPool t c with
  | some n => reservationOf n.config.resources k
  | none => 0

/-- Modelled from the spec: upsert validation checks that the sum of the
children's reservations stays within the parent's reservation for every
kind (the implicit root is unconstrained). -/
def reservationsOk (t : Tree) (pid id : String) (cfg : ResPoolConfig)
    (pnode : PoolNode) : Bool :=
  if pid = RootResPoolID then true
  else kinds.all fun k =>
    decide (((pnode.children.filter (fun c => c ≠ id)).foldl
        (fun acc c => acc + poolReservation t c k) 0) +
      reservationOf cfg.resources k ≤
      reservationOf pnode.config.resources k)

/-- A freshly created pool node for a config. -/
def newNode (cfg : ResPoolConfig) : PoolNode :=
  { config := cfg
    children := []
    queue := []
    entitlement := Resources.zero
    allocation := Resources.zero }

/-- Modelled from the spec: `Upsert(id, cfg)` validates the config against
the tree (known scheduling policy, resolvable non-self parent, children's
reservations within the parent's) and then either updates the existing
node's configuration in place or inserts a fresh leaf node and links it to
its parent; validation failure leaves the tree unchanged. -/
def Upsert (t : Tree) (id : String) (cfg : ResPoolConfig) :
    Except RespoolErr Tree :=
  if id = RootResPoolID then .error (.invalidPoolId id)
  else if cfg.policy ≠ some .PriorityFIFO then .error (.invalidQueueType id)
  else
    match cfg.parent with
    | none => .error (.unresolvedParent id)
    | some pid =>
      if pid = id then .error (.unresolvedParent id)
      else
        match getPool t pid with
        | none => .error (.unresolvedParent id)
        | some pnode =>
          if reservationsOk t pid id cfg pnode then
            match getPool t id with
            | some n =>
              .ok { t with pools := setPool t.pools id { n with config := cfg } }
            | none =>
              let ps := setPool t.pools pid
                { pnode with children := pnode.children ++ [id] }
              .ok { t with pools := ps ++ [(id, newNode cfg)] }
          else .error (.reservationExceedsParent id)

/-- The entitlement the pending-queue test grants to the leaf pool. -/
def entC1 : Resources := ⟨100, 1000, 100, 2⟩

/-- First single-task gang of the pending-queue scenario (priority 0, cpu 1,
memory 100, disk 10). -/
def task1C1 : RmTask :=
  { name := "job1-1", jobId := "job1", taskId := "job1-1", priority := 0,
    demand := ⟨1, 100, 10, 0⟩ }

/-- Second single-task gang of the pending-queue scenario. -/
def task2C1 : RmTask :=
  { name := "job1-2", jobId := "job1", taskId := "job1-2", priority := 0,
    demand := ⟨1, 100, 10, 0⟩ }

/-- Queue entry for the first gang, enqueued at tick 0. -/
def item1C1 : QueueItem := { gang := [task1C1], priority := 0, enqueueTime := 0 }

/-- Queue entry for the second gang, enqueued at tick 1. -/
def item2C1 : QueueItem := { gang := [task2C1], priority := 0, enqueueTime := 1 }

/-- The standard per-kind resource configuration of the test fixture. -/
def standardResCfg : List ResourceConfig :=
  [⟨"cpu", 100, 1000, 1⟩, ⟨"memory", 100, 1000, 1⟩,
   ⟨"disk", 100, 1000, 1⟩, ⟨"gpu", 2, 4, 1⟩]

/-- A priority-FIFO pool configuration under a given parent. -/
def poolCfg (nm par : String) : ResPoolConfig :=
  { name := nm, parent := some par, resources := standardResCfg,
    policy := some .PriorityFIFO }

/-- The implicit root configuration. -/
def rootCfg : ResPoolConfig :=
  { name := "root", parent := none, resources := [],
    policy := some .PriorityFIFO }

/-- The leaf pool `respool11` holding a given pending queue. -/
def leafC1 (q : List QueueItem) : PoolNode :=
  { config := poolCfg ("respool11") ("respool1")
    children := []
    queue := q
    entitlement := entC1
    allocation := Resources.zero }

/-- The mid pool `respool1`, a non-leaf with one child. -/
def midC1 : PoolNode :=
  { config := poolCfg ("respool1") ("root")
    children := ["respool11"]
    queue := []
    entitlement := Resources.zero
    allocation := Resources.zero }

/-- The root node with one child. -/
def rootC1 : PoolNode :=
  { config := rootCfg
    children := ["respool1"]
    queue := []
    entitlement := Resources.zero
    allocation := Resources.zero }

/-- The fixture tree root→respool1→respool11 with both gangs pending. -/
def treeC1 : Tree :=
  { pools := [(RootResPoolID, rootC1), ("respool1", midC1),
      ("respool11", leafC1 [item1C1, item2C1])]
    clock := 2 }

/-- The fixture tree after the first gang is dequeued. -/
def treeC1mid : Tree :=
  { pools := [(RootResPoolID, rootC1), ("respool1", midC1),
      ("respool11", leafC1 [item2C1])]
    clock := 2 }

/-- The fixture tree after both gangs are dequeued. -/
def treeC1done : Tree :=
  { pools := [(RootResPoolID, rootC1), ("respool1", midC1),
      ("respool11", leafC1 [])]
    clock := 2 }

/-- A configuration for a new pool `respool2` directly under the root. -/
def cfgC9 : ResPoolConfig := poolCfg ("respool2") ("root")

/-- The fixture tree after `respool2` is upserted under the root. -/
def treeC9 : Tree :=
  { pools := [(RootResPoolID,
      { rootC1 with children := ["respool1", "respool2"] }),
      ("respool1", midC1),
      ("respool11", leafC1 [item1C1, item2C1]),
      ("respool2", newNode cfgC9)]
    clock := 2 }

end Respool

namespace Recovery

/-- A stored task row as recovery reads it: instance index and task state. -/
structure TaskRec where
  instanceId : Nat
  state : Cached.TaskState
deriving DecidableEq

/-- A stored job with its owning pool, gang minimum and task rows. -/
structure JobRec where
  jobId : String
  respoolId : String
  minInstances : Nat
  tasks : List TaskRec
deriving DecidableEq

/-- The identity of a task inside the tracker. -/
structure TaskKey where
  jobId : String
  instanceId : Nat
deriving DecidableEq

/-- What recovery does with a task of a given state. -/
inductive RecoveryAction where
  | requeue
  | trackOnly
  | skip
deriving DecidableEq

/-- Modelled from the spec: the per-state recovery policy of the resource
manager's recovery handler, which is not part of the source snapshot (only
its test is).  A PENDING task is re-enqueued into its pool's pending queue; a
task already handed to the fabric (RUNNING, LAUNCHING, LAUNCHED) is recorded
in the tracker but not re-enqueued; terminal tasks are not recovered, and the
repository's recovery test pins that INITIALIZED tasks are not recovered
either. -/
def recoveryAction (s : Cached.TaskState) : RecoveryAction :=
  match s with
  | .PENDING => .requeue
  | .RUNNING => .trackOnly
  | .LAUNCHING => .trackOnly
  | .LAUNCHED => .trackOnly
  | _ => .skip

/-- The tracker key of a task row of a job. -/
def key (j : JobRec) (t : TaskRec) : TaskKey :=
  { jobId := j.jobId, instanceId := t.instanceId }

/-- The task rows of a job that recovery re-enqueues. -/
def pendingTasks (j : JobRec) : List TaskRec :=
  j.tasks.filter fun t => recoveryAction t.state = RecoveryAction.requeue

/-- The task rows of a job that recovery records in the tracker. -/
def trackedTasks (j : JobRec) : List TaskRec :=
  j.tasks.filter fun t => recoveryAction t.state ≠ RecoveryAction.skip

/-- Modelled from the spec: the gangs a job contributes to its pool's
pending queue — with a minimum-running-instances requirement above one the
job's pending tasks form a single gang, otherwise one singleton gang per
task. -/
def jobGangs (j : JobRec) : List (List TaskKey) :=
  if j.minInstances > 1 then
    if pendingTasks j = [] then [] else [(pendingTasks j).map (key j)]
  else (pendingTasks j).map fun t => [key j t]

/-- The tracker entries a job contributes. -/
def recoverTrackerJob (j : JobRec) : List TaskKey :=
  (trackedTasks j).map (key j)

/-- The outcome of recovery: the tracker contents and the gangs enqueued
per pool. -/
structure RecoveredState where
  tracker : List TaskKey
  queued : List (String × List TaskKey)
deriving DecidableEq

/-- Modelled from the spec: recovery on leadership gain scans the stored
jobs and, for each job whose owning pool is a known leaf, reconstructs
tracker entries and re-enqueues pending gangs according to each task's
state. -/
def recover (leaf : String → Bool) (jobs : List JobRec) : RecoveredState :=
  { tracker := jobs.foldr
      (fun j acc =>
        (if leaf j.respoolId then recoverTrackerJob j else []) ++ acc) []
    queued := jobs.foldr
      (fun j acc =>
        (if leaf j.respoolId then
          (jobGangs j).map fun g => (j.respoolId, g)
        else []) ++ acc) [] }

/-- The leaf predicate of the recovery fixture: only `respool21` is a known
leaf. -/
def leafC3 (p : String) : Bool := p = "respool21"

/-- A fixture job: identifier, gang minimum and a run of equal-state tasks
followed by one SUCCEEDED task. -/
def jobC3 (nm : String) (minInst : Nat) (st : Cached.TaskState) : JobRec :=
  { jobId := nm
    respoolId := "respool21"
    minInstances := minInst
    tasks := (List.range 2).map (fun i => { instanceId := i, state := st }) ++
      [{ instanceId := 3, state := .SUCCEEDED }] }

/-- The recovery fixture: an INITIALIZED job, a PENDING gang job, a RUNNING
job and a LAUNCHED job. -/
def jobsC3 : List JobRec :=
  [jobC3 ("TestJob_0") 1 .INITIALIZED,
   jobC3 ("TestJob_1") 10 .PENDING,
   jobC3 ("TestJob_2") 1 .RUNNING,
   jobC3 ("TestJob_3") 1 .LAUNCHED]

end Recovery

namespace Placement

/-- The placement-relevant attributes of one task: its per-round deadline,
its maximum number of placement rounds and the rounds used so far. -/
structure PTask where
  deadline : Nat
  maxRounds : Nat
  rounds : Nat
deriving DecidableEq

/-- An assignment pairs a task with the host chosen for it, if any. -/
structure Assignment where
  taskId : Nat
  task : PTask
  host : Option Nat
deriving DecidableEq

/-- Whether the task's placement deadline lies strictly in the past. -/
def PastDeadline (now : Nat) (t : PTask) : Bool := decide (t.deadline < now)

/-- Whether the task has used up its placement rounds. -/
def PastMaxRounds (t : PTask) : Bool := decide (t.rounds ≥ t.maxRounds)

/-- `IncRounds`: one more placement round consumed. -/
def IncRounds (a : Assignment) : Assignment :=
  { a with task := { a.task with rounds := a.task.rounds + 1 } }

/-- Modelled from the spec together with the repository's engine test
(`TestEngineFilterAssignments`), the engine itself not being part of the
source snapshot: the end-of-round partition of assignments.  An assignment
without a host is unassigned once past its deadline and retryable otherwise;
an assignment with a host first has its round count incremented and is
accepted (assigned) once past its maximum rounds or past its deadline,
otherwise it is retried for a better host. -/
def filterAssignments (now : Nat) :
    List Assignment → List Assignment × List Assignment × List Assignment
  | [] => ([], [], [])
  | a :: rest =>
    let r := filterAssignments now rest
    match a.host with
    | none =>
      if PastDeadline now a.task then (r.1, r.2.1, a :: r.2.2)
      else (r.1, a :: r.2.1, r.2.2)
    | some _ =>
      let a2 := IncRounds a
      if PastMaxRounds a2.task || PastDeadline now a2.task then
        (a2 :: r.1, r.2.1, r.2.2)
      else (r.1, a2 :: r.2.1, r.2.2)

/-- The per-assignment effect of one partition pass: an assignment holding a
host consumes a round. -/
def bump (a : Assignment) : Assignment :=
  match a.host with
  | some _ => IncRounds a
  | none => a

/-- An assignment with a host, within deadline and with a round still to
spare: the claimed partition places it among the assigned, the engine
retries it. -/
def retryingAssignment : Assignment :=
  { taskId := 0, task := { deadline := 100, maxRounds := 2, rounds := 0 },
    host := some 1 }

/-- The reason handed back to the task service for unplaced tasks. -/
inductive EnqueueReason where
  | failedToPlaceTaskAfterTimeout
deriving DecidableEq

/-- A task in the round-exhaustion pipeline: id, resource demand and chosen
host. -/
structure PAssign where
  taskId : Nat
  demand : Int
  host : Option Nat
deriving DecidableEq

/-- A published placement. -/
structure HostPlacement where
  taskId : Nat
  hostname : Nat
deriving DecidableEq

/-- The placement published for an assignment on a host. -/
def mkPlacement (a : PAssign) (h : Nat) : HostPlacement :=
  { taskId := a.taskId, hostname := h }

/-- Modelled from the spec: the baseline batch strategy packs each task onto
the first host with enough remaining capacity, consuming it. -/
def fitHost (d : Int) : List (Nat × Int) → Option (Nat × List (Nat × Int))
  | [] => none
  | (h, c) :: rest =>
    if d ≤ c then some (h, (h, c - d) :: rest)
    else
      match fitHost d rest with
      | some (h2, rest2) => some (h2, (h, c) :: rest2)
      | none => none

/-- Modelled from the spec: one `PlaceOnce` pass of the batch strategy over
the assignments, mutating each unassigned task's host when an offer fits. -/
def placeOnce : List (Nat × Int) → List PAssign → List PAssign
  | _, [] => []
  | caps, a :: rest =>
    match a.host with
    | some _ => a :: placeOnce caps rest
    | none =>
      match fitHost a.demand caps with
      | some (h, caps2) => { a with host := some h } :: placeOnce caps2 rest
      | none => a :: placeOnce caps rest

/-- The placements published for every assignment that obtained a host. -/
def publishAssigned (l : List PAssign) : List HostPlacement :=
  l.foldr
    (fun a acc =>
      match a.host with
      | some h => mkPlacement a h :: acc
      | none => acc) []

/-- Every assignment still without a host is enqueued back to the task
service with the failed-to-place-after-timeout reason. -/
def enqueueUnassigned (l : List PAssign) : List (PAssign × EnqueueReason) :=
  (l.filter fun a => a.host.isNone).map
    fun a => (a, EnqueueReason.failedToPlaceTaskAfterTimeout)

/-- Modelled from the spec: when placement rounds are exhausted, assigned
tasks are published via `SetPlacements` and unassigned tasks are enqueued
back to the scheduler with the timeout reason. -/
def roundExhausted (l : List PAssign) :
    List HostPlacement × List (PAssign × EnqueueReason) :=
  (publishAssigned l, enqueueUnassigned l)

/-- The 25 tasks of the placement-deadline scenario, each demanding 5 cpu. -/
def tasksC8 : List PAssign :=
  (List.range 25).map fun i => { taskId := i, demand := 5, host := none }

/-- The 10 suitable hosts of the scenario, each able to hold one task. -/
def hostsC8 : List (Nat × Int) :=
  (List.range 10).map fun i => (i, (5 : Int))

/-- The scenario's assignments after the strategy ran out of offers. -/
def placedC8 : List PAssign := placeOnce hostsC8 tasksC8

end Placement

namespace Cached

/-- C5: an attempted patch whose resulting state transition is outside the
declared transition graph (including any overwrite of a terminal state
without a changed mesos task id) is ignored: `PatchRuntime` returns no error
and leaves both the cached runtime and the stored runtime unchanged. -/
theorem c5_invalid_transition_ignored
    (t : TaskCache) (cur : RuntimeInfo) (d : RuntimeDiff) (now : Nat)
    (hcache : t.cache = some cur) (hrev : d.revision = none) :
    (validateState (some cur) (some (patch cur d)) = false →
      PatchRuntime t (some d) now = .ok t)
    ∧ (∀ s : TaskState, IsPelotonStateTerminal cur.state = true →
        d.state = some s → s ≠ cur.state → d.mesosTaskId = none →
        d.desiredMesosTaskId = none → cur.desiredMesosTaskId = none →
        validateState (some cur) (some (patch cur d)) = false ∧
        PatchRuntime t (some d) now = .ok t) := by
  have hmain : validateState (some cur) (some (patch cur d)) = false →
      PatchRuntime t (some d) now = .ok t := by
    intro hinv
    cases t with
    | mk cache stored =>
      simp only [TaskCache.mk.injEq] at hcache ⊢
      subst hcache
      simp [PatchRuntime, hrev, hinv]
  refine ⟨hmain, ?_⟩
  intro s hterm hds hne hdm hdd hcd
  have hinv : validateState (some cur) (some (patch cur d)) = false := by
    have hmes : (patch cur d).mesosTaskId = cur.mesosTaskId := by
      simp [patch, hdm]
    have hdes : (patch cur d).desiredMesosTaskId = none := by
      simp [patch, hdd, hcd]
    have hst : (patch cur d).state = s := by
      simp [patch, hds]
    simp only [validateState, hmes, hdes, hst, getMesosTaskId,
      getDesiredMesosTaskId, getState]
    simp [hterm, hne]
  exact ⟨hinv, hmain hinv⟩

/-- C5 witness: patching a SUCCEEDED task back to RUNNING without changing
its mesos task id is ignored. -/
theorem c5_invalid_transition_ignored_witness :
    PatchRuntime { cache := some terminalRuntime, stored := terminalRuntime }
      (some terminalOverwriteDiff) 11 =
      .ok { cache := some terminalRuntime, stored := terminalRuntime } := by
  have h := c5_invalid_transition_ignored
    { cache := some terminalRuntime, stored := terminalRuntime }
    terminalRuntime terminalOverwriteDiff 11 rfl rfl
  exact (h.2 .RUNNING (by decide) rfl (by decide) rfl rfl rfl).2

end Cached


namespace Cached

/-- C6 counterexample: a runtime update that starts a new run (mesos task id
run 1 to run 2, state INITIALIZED) is accepted by `validateState` even though
its desired mesos task id's run id decreases from 5 to 3, so a decreasing
desired run id is not always rejected. -/
theorem c6_runid_decrease_accepted_on_new_run :
    validateState (some runC6) (some newRunC6) = true ∧
    ParseRunID (getValue newRunC6.desiredMesosTaskId) = some 3 ∧
    ParseRunID (getValue runC6.desiredMesosTaskId) = some 5 := by decide

/-- C6 (amended): a runtime update that changes the mesos task id is accepted
only when, for ids in the run-id-bearing format, the new run id is greater
than or equal to the current one and the new state is INITIALIZED; and a
desired mesos task id whose run id would decrease is rejected whenever the
update does not simultaneously change the mesos task id. -/
theorem c6_runid_monotonic
    (cur newR : RuntimeInfo) (v dv : String) (nr cr ndr cdr : Nat) :
    (newR.mesosTaskId = some v →
      getValue (getMesosTaskId (some cur)) ≠ v →
      validateState (some cur) (some newR) = true →
      ParseRunID v = some nr →
      ParseRunID (getValue cur.mesosTaskId) = some cr →
      ¬ (v.data.length > 2 * uuidLength ∧
          (getValue cur.mesosTaskId).data.length > 2 * uuidLength) →
      nr ≥ cr ∧ newR.state = .INITIALIZED)
    ∧ ((newR.mesosTaskId.isSome = false ∨
          getValue (getMesosTaskId (some cur)) = getValue newR.mesosTaskId) →
      newR.desiredMesosTaskId = some dv →
      ParseRunID dv = some ndr →
      ParseRunID (getValue cur.desiredMesosTaskId) = some cdr →
      ¬ (dv.data.length > 2 * uuidLength ∧
          (getValue cur.desiredMesosTaskId).data.length > 2 * uuidLength) →
      ndr < cdr →
      validateState (some cur) (some newR) = false) := by
  constructor
  · intro hm hne hval hpn hpc hlen
    have hcond : (newR.mesosTaskId.isSome ∧
        getValue (getMesosTaskId (some cur)) ≠ getValue newR.mesosTaskId) := by
      rw [hm]; exact ⟨rfl, by simpa [getValue] using hne⟩
    rw [validateState, if_pos hcond] at hval
    by_cases hv : validateMesosTaskID (getValue newR.mesosTaskId)
        (getValue (getMesosTaskId (some cur))) = true
    · have hv2 : validateMesosTaskID v (getValue cur.mesosTaskId) = true := by
        simpa [hm, getMesosTaskId, getValue] using hv
      have hmono : nr ≥ cr := by
        rw [validateMesosTaskID, if_neg hlen, hpn, hpc] at hv2
        simpa using hv2
      refine ⟨hmono, ?_⟩
      rw [if_neg (by simp [hv])] at hval
      exact of_decide_eq_true hval
    · rw [if_pos (by simpa using hv)] at hval
      exact absurd hval (by simp)
  · intro hnochange hd hdn hdc hdlen hdec
    have hcond : ¬ (newR.mesosTaskId.isSome ∧
        getValue (getMesosTaskId (some cur)) ≠ getValue newR.mesosTaskId) := by
      rcases hnochange with h | h
      · intro hc; rw [h] at hc; exact absurd hc.1 (by simp)
      · intro hc; exact hc.2 h
    rw [validateState, if_neg hcond]
    have hinvalid : validateMesosTaskID (getValue newR.desiredMesosTaskId)
        (getValue (getDesiredMesosTaskId (some cur))) = false := by
      have hdl2 : ¬ ((getValue newR.desiredMesosTaskId).data.length >
          2 * uuidLength ∧
          (getValue (getDesiredMesosTaskId (some cur))).data.length >
            2 * uuidLength) := by
        simpa [hd, getDesiredMesosTaskId, getValue] using hdlen
      rw [validateMesosTaskID, if_neg hdl2]
      rw [show getValue newR.desiredMesosTaskId = dv by simp [hd, getValue]]
      rw [show getValue (getDesiredMesosTaskId (some cur)) =
        getValue cur.desiredMesosTaskId from rfl]
      rw [hdn, hdc]
      simp [Nat.not_le.mpr hdec]
    rw [if_pos ⟨by rw [hd]; rfl, by simp [hinvalid]⟩]

/-- C6 witness: a mesos task id moving from run 1 to run 2 with state
INITIALIZED satisfies the accepted-update characterisation, and a desired
run id dropping from 5 to 3 without a mesos task id change is rejected. -/
theorem c6_runid_monotonic_witness :
    (2 ≥ 1 ∧ newRunC6.state = TaskState.INITIALIZED) ∧
    validateState (some runC6) (some desiredDropC6) = false := by
  have h1 := c6_runid_monotonic runC6 newRunC6 ("a-0-2") ("a-0-3") 2 1 3 5
  have h2 := c6_runid_monotonic runC6 desiredDropC6 ("a-0-1") ("a-0-3") 1 1 3 5
  refine ⟨h1.1 rfl (by decide) (by decide) (by decide) (by decide)
    (by decide), ?_⟩
  exact h2.2 (Or.inr (by decide)) rfl (by decide) (by decide) (by decide)
    (by decide)

end Cached

namespace Cached

/-- C10: a successfully applied patch bumps the revision version by exactly
one (cache and store agreeing); `ReplaceRuntime` without force overwrites the
cache only when the incoming revision version is strictly greater than the
cached one and otherwise leaves the cache unchanged without error; a nil
runtime or nil revision is rejected with an invalid-argument error.  In
particular the revision version of the cached runtime never decreases. -/
theorem c10_revision_monotonic
    (t : TaskCache) (cur : RuntimeInfo) (d : RuntimeDiff) (r : RuntimeInfo)
    (rev rrev : ChangeLog) (now : Nat) (hc : t.cache = some cur) :
    (cur.revision = some rev → d.revision = none →
      validateState (some cur) (some (patch cur d)) = true →
      ∃ f : RuntimeInfo,
        PatchRuntime t (some d) now = .ok { cache := some f, stored := f } ∧
        getVersion f.revision = rev.version + 1)
    ∧ (r.revision = some rrev →
        (rrev.version > getVersion cur.revision →
          ReplaceRuntime t (some r) false = .ok { t with cache := some r }) ∧
        (rrev.version ≤ getVersion cur.revision →
          ReplaceRuntime t (some r) false = .ok t))
    ∧ ReplaceRuntime t none false = .error .invalidArgument
    ∧ (r.revision = none →
        ReplaceRuntime t (some r) false = .error .invalidArgument) := by
  refine ⟨?_, ?_, rfl, ?_⟩
  · intro hrev hdrev hvalid
    refine ⟨{ patch cur d with revision := cur.revision.map fun rv =>
        { rv with version := rv.version + 1, updatedAt := now } }, ?_, ?_⟩
    · simp [PatchRuntime, hdrev, hc, hvalid]
    · simp [getVersion, hrev]
  · intro hrrev
    constructor
    · intro hgt
      rw [ReplaceRuntime]
      rw [if_neg (by simp [hrrev])]
      rw [if_pos ?_]
      exact Or.inr (Or.inr (by simpa [hc, getRevision, getVersion, hrrev]
        using hgt))
    · intro hle
      rw [ReplaceRuntime]
      rw [if_neg (by simp [hrrev])]
      rw [if_neg ?_]
      push_neg
      refine ⟨by simp, by simp [hc], ?_⟩
      simpa [hc, getRevision, getVersion, hrrev] using hle
  · intro hrn
    rw [ReplaceRuntime]
    rw [if_pos (by simp [hrn])]

/-- C10 witness: patching `runC10` (revision version 3) to SUCCEEDED yields
version 4; replacing with a version-5 runtime overwrites while replacing with
a version-2 runtime is a silent no-op; nil inputs are rejected. -/
theorem c10_revision_monotonic_witness :
    (∃ f : RuntimeInfo,
      PatchRuntime { cache := some runC10, stored := runC10 }
        (some succeededDiff) 9 = .ok { cache := some f, stored := f } ∧
      getVersion f.revision = 3 + 1) ∧
    ReplaceRuntime { cache := some runC10, stored := runC10 }
      (some { runC10 with
              revision := some { version := 2, createdAt := 0, updatedAt := 0 } })
      false = .ok { cache := some runC10, stored := runC10 } ∧
    ReplaceRuntime { cache := some runC10, stored := runC10 } none false =
      .error .invalidArgument := by
  have h := c10_revision_monotonic
    { cache := some runC10, stored := runC10 } runC10 succeededDiff
    { runC10 with
      revision := some { version := 2, createdAt := 0, updatedAt := 0 } }
    { version := 3, createdAt := 0, updatedAt := 7 }
    { version := 2, createdAt := 0, updatedAt := 0 } 9 rfl
  exact ⟨h.1 rfl rfl (by decide), (h.2.1 rfl).2 (by decide), h.2.2.1⟩

end Cached

namespace Goalstate

/-- C4: a FAILED task whose fabric reason is classified as a system failure
is retried exactly once even with MaxFailures = 0 — the retry patch carries a
fresh mesos task id (run id incremented by one), records the previous mesos
task id, and resets the state to INITIALIZED — while after that one retry
(failure count at least one) no further retry occurs, and a non-system
failure with MaxFailures = 0 is never retried. -/
theorem c4_system_failure_retry (r : RetryRuntime) (policy : RestartPolicy)
    (hmax : policy.maxFailures = 0) :
    (IsSystemFailure r = true → r.failureCount = 0 →
      ∃ d : RetryDiff, TaskFailRetry r policy = some d ∧
        d.state = .INITIALIZED ∧
        d.prevMesosTaskId = r.mesosTaskId ∧
        d.mesosTaskId.runId = r.mesosTaskId.runId + 1 ∧
        d.mesosTaskId ≠ r.mesosTaskId)
    ∧ (IsSystemFailure r = true → r.failureCount ≥ 1 →
        TaskFailRetry r policy = none)
    ∧ (IsSystemFailure r = false → TaskFailRetry r policy = none) := by
  refine ⟨?_, ?_, ?_⟩
  · intro hsys hcount
    refine ⟨rescheduleDiff r.mesosTaskId, ?_, rfl, rfl, rfl, ?_⟩
    · rw [TaskFailRetry]
      simp [hsys, hmax, hcount, MaxSystemFailureAttempts]
    · intro h
      have h2 := congrArg MesosTaskID.runId h
      simp [rescheduleDiff] at h2
  · intro hsys hcount
    rw [TaskFailRetry]
    simp only [hsys, hmax, if_true, MaxSystemFailureAttempts]
    rw [if_neg]
    omega
  · intro hsys
    rw [TaskFailRetry]
    simp [hsys, hmax]

/-- C4 witness: a container-launch failure at failure count 0 with
MaxFailures = 0 is retried to run 2, while the same failure count with a
plain command-executor failure is not retried. -/
theorem c4_system_failure_retry_witness :
    (∃ d : RetryDiff,
      TaskFailRetry launchFailedRuntime { maxFailures := 0 } = some d ∧
      d.state = .INITIALIZED ∧
      d.prevMesosTaskId = launchFailedRuntime.mesosTaskId ∧
      d.mesosTaskId.runId = launchFailedRuntime.mesosTaskId.runId + 1 ∧
      d.mesosTaskId ≠ launchFailedRuntime.mesosTaskId) ∧
    TaskFailRetry { launchFailedRuntime with failureCount := 1 }
      { maxFailures := 0 } = none ∧
    TaskFailRetry plainFailedRuntime { maxFailures := 0 } = none := by
  refine ⟨(c4_system_failure_retry launchFailedRuntime
      { maxFailures := 0 } rfl).1 (by decide) rfl, ?_, ?_⟩
  · exact (c4_system_failure_retry
      { launchFailedRuntime with failureCount := 1 }
      { maxFailures := 0 } rfl).2.1 (by decide) (by decide)
  · exact (c4_system_failure_retry plainFailedRuntime
      { maxFailures := 0 } rfl).2.2 (by decide)

end Goalstate

namespace Respool

theorem Resources.le_trans {a b c : Resources} (h1 : a.le b) (h2 : b.le c) :
    a.le c := by
  obtain ⟨x1, x2, x3, x4⟩ := h1
  obtain ⟨y1, y2, y3, y4⟩ := h2
  exact ⟨x1.trans y1, x2.trans y2, x3.trans y3, x4.trans y4⟩

theorem Resources.add_assoc (a b c : Resources) :
    (a.add b).add c = a.add (b.add c) := by
  simp only [Resources.add, Resources.mk.injEq]
  refine ⟨by ring, by ring, by ring, by ring⟩

theorem Resources.le_add_of_nonneg {a b : Resources}
    (hb : Resources.le Resources.zero b) : Resources.le a (a.add b) := by
  obtain ⟨x1, x2, x3, x4⟩ := hb
  simp only [Resources.zero] at x1 x2 x3 x4
  exact ⟨by simp [Resources.add]; linarith, by simp [Resources.add]; linarith,
    by simp [Resources.add]; linarith, by simp [Resources.add]; linarith⟩

theorem Resources.add_nonneg {a b : Resources}
    (ha : Resources.le Resources.zero a) (hb : Resources.le Resources.zero b) :
    Resources.le Resources.zero (a.add b) := by
  obtain ⟨x1, x2, x3, x4⟩ := ha
  obtain ⟨y1, y2, y3, y4⟩ := hb
  simp only [Resources.zero] at *
  exact ⟨by simp [Resources.add]; linarith, by simp [Resources.add]; linarith,
    by simp [Resources.add]; linarith, by simp [Resources.add]; linarith⟩

theorem totalDemand_nonneg (q : List QueueItem)
    (hpos : ∀ it ∈ q, Resources.le Resources.zero (gangDemand it.gang)) :
    Resources.le Resources.zero (totalDemand q) := by
  induction q with
  | nil => exact ⟨le_refl 0, le_refl 0, le_refl 0, le_refl 0⟩
  | cons it rest ih =>
    have h1 : totalDemand (it :: rest) =
        (gangDemand it.gang).add (totalDemand rest) := rfl
    rw [h1]
    exact Resources.add_nonneg (hpos it (List.mem_cons_self it rest))
      (ih fun x hx => hpos x (List.mem_cons_of_mem it hx))

theorem dequeueAux_all_fit (ent : Resources) :
    ∀ (q : List QueueItem) (used : Resources) (lim : Nat),
      Resources.le (used.add (totalDemand q)) ent →
      (∀ it ∈ q, Resources.le Resources.zero (gangDemand it.gang)) →
      dequeueAux ent used lim q = (q.take lim, q.drop lim) := by
  intro q
  induction q with
  | nil => intro used lim _ _; simp [dequeueAux]
  | cons it rest ih =>
    intro used lim hfit hpos
    match lim with
    | 0 => simp [dequeueAux]
    | Nat.succ k =>
      have htot : totalDemand (it :: rest) =
          (gangDemand it.gang).add (totalDemand rest) := rfl
      have hrest : Resources.le
          ((used.add (gangDemand it.gang)).add (totalDemand rest)) ent := by
        rw [Resources.add_assoc, ← htot]; exact hfit
      have hd : Resources.le (used.add (gangDemand it.gang)) ent := by
        refine Resources.le_trans ?_ hrest
        exact Resources.le_add_of_nonneg (totalDemand_nonneg rest
          fun x hx => hpos x (List.mem_cons_of_mem it hx))
      simp only [dequeueAux]
      rw [if_neg (Nat.succ_ne_zero k), if_pos hd]
      simp only [Nat.succ_sub_one]
      rw [ih (used.add (gangDemand it.gang)) k hrest
        fun x hx => hpos x (List.mem_cons_of_mem it hx)]
      simp

theorem mem_take_of_earlier :
    ∀ (q : List QueueItem), pfifoOrdered q →
      ∀ (i1 i2 : QueueItem) (k : Nat), i1 ∈ q →
        i1.priority = i2.priority → i1.enqueueTime < i2.enqueueTime →
        i2 ∈ q.take k → i1 ∈ q.take k := by
  intro q
  induction q with
  | nil => intro _ i1 i2 k h1; simp at h1
  | cons x rest ih =>
    intro hord i1 i2 k h1 hp ht h2
    rw [pfifoOrdered, List.pairwise_cons] at hord
    match k with
    | 0 => simp at h2
    | Nat.succ m =>
      simp only [List.take_succ_cons] at h2 ⊢
      rcases List.mem_cons.mp h1 with h1x | h1rest
      · exact List.mem_cons.mpr (Or.inl h1x)
      · rcases List.mem_cons.mp h2 with h2x | h2take
        · exfalso
          have hrel := hord.1 i1 h1rest
          rcases hrel with hgt | ⟨heq, hle⟩
          · rw [h2x] at hp; omega
          · rw [h2x] at ht; omega
        · exact List.mem_cons.mpr (Or.inr
            (ih (by rw [pfifoOrdered]; exact hord.2) i1 i2 m h1rest hp ht
              h2take))

theorem mem_enqueueItem (q : List QueueItem) (it y : QueueItem) :
    y ∈ enqueueItem q it ↔ y = it ∨ y ∈ q := by
  induction q with
  | nil => simp [enqueueItem]
  | cons x xs ih =>
    by_cases h : it.priority > x.priority
    · simp [enqueueItem, h]
    · simp only [enqueueItem, if_neg h, List.mem_cons, ih]
      tauto

theorem pfifoLe_priority {a b : QueueItem} (h : pfifoLe a b) :
    b.priority ≤ a.priority := by
  rcases h with h | ⟨h, _⟩
  · omega
  · omega

theorem enqueueItem_pfifo :
    ∀ (q : List QueueItem) (it : QueueItem), pfifoOrdered q →
      (∀ x ∈ q, x.enqueueTime ≤ it.enqueueTime) →
      pfifoOrdered (enqueueItem q it) := by
  intro q
  induction q with
  | nil => intro it _ _; simp [enqueueItem, pfifoOrdered]
  | cons x xs ih =>
    intro it hord hlate
    rw [pfifoOrdered, List.pairwise_cons] at hord
    by_cases h : it.priority > x.priority
    · rw [enqueueItem]
      rw [if_pos h]
      rw [pfifoOrdered, List.pairwise_cons]
      constructor
      · intro y hy
        rcases List.mem_cons.mp hy with hyx | hyxs
        · rw [hyx]; exact Or.inl h
        · exact Or.inl (lt_of_le_of_lt
            (pfifoLe_priority (hord.1 y hyxs)) h)
      · rw [List.pairwise_cons]; exact hord
    · rw [enqueueItem]
      rw [if_neg h]
      rw [pfifoOrdered, List.pairwise_cons]
      constructor
      · intro y hy
        rcases (mem_enqueueItem xs it y).mp hy with hyit | hyxs
        · rw [hyit]
          rcases Nat.lt_or_ge it.priority x.priority with hlt | hge
          · exact Or.inl hlt
          · have heq : x.priority = it.priority := by omega
            exact Or.inr ⟨heq, hlate x (List.mem_cons_self x xs)⟩
        · exact hord.1 y hyxs
      · exact ih it hord.2 fun y hy => hlate y (List.mem_cons_of_mem x hy)

/-- C2: `EnqueueGang` on any non-leaf pool fails with the pool-not-leaf
structured error; since no new tree is produced, the pool tree and its
queues are unchanged. -/
theorem c2_enqueue_non_leaf_fails (t : Tree) (id : String) (n : PoolNode)
    (g : Gang) (hget : getPool t id = some n) (hnl : isLeaf n = false) :
    EnqueueGang t id g = .error (.notALeaf id) := by
  rw [EnqueueGang, hget]
  simp [hnl]

/-- C2 witness: enqueuing a gang at the non-leaf `respool1` fails with the
pool-not-leaf error. -/
theorem c2_enqueue_non_leaf_fails_witness :
    EnqueueGang treeC1 ("respool1") [task1C1] =
      .error (.notALeaf ("respool1")) :=
  c2_enqueue_non_leaf_fails treeC1 ("respool1") midC1 [task1C1]
    (by decide) (by decide)

end Respool

namespace Respool

/-- C1: in a leaf pool under the default priority-FIFO policy (queue ordered
by descending priority, ascending enqueue time — an order `enqueueItem`
preserves), `DequeueGangList lim` returns the first `lim` gangs in queue
order when every pending gang fits the entitlement, so of two equal-priority
gangs the earlier-enqueued one is dequeued no later than the other: whenever
the later item is among the dequeued prefix, so is the earlier one. -/
theorem c1_priority_fifo_order (t : Tree) (id : String) (n : PoolNode)
    (lim : Nat) (i1 i2 : QueueItem)
    (hget : getPool t id = some n) (hleaf : isLeaf n = true)
    (hord : pfifoOrdered n.queue)
    (h1 : i1 ∈ n.queue)
    (hp : i1.priority = i2.priority) (ht : i1.enqueueTime < i2.enqueueTime)
    (hfit : Resources.le (n.allocation.add (totalDemand n.queue))
      n.entitlement)
    (hpos : ∀ it ∈ n.queue, Resources.le Resources.zero
      (gangDemand it.gang)) :
    (DequeueGangList t id lim =
      .ok ((n.queue.take lim).map (·.gang),
        { t with pools :=
            setPool t.pools id { n with queue := n.queue.drop lim } }))
    ∧ (i2 ∈ n.queue.take lim → i1 ∈ n.queue.take lim)
    ∧ (∀ x : QueueItem, (∀ y ∈ n.queue, y.enqueueTime ≤ x.enqueueTime) →
        pfifoOrdered (enqueueItem n.queue x)) := by
  refine ⟨?_, ?_, ?_⟩
  · simp only [DequeueGangList, hget, hleaf, if_true]
    rw [dequeueAux_all_fit n.entitlement n.queue n.allocation lim hfit hpos]
  · exact mem_take_of_earlier n.queue hord i1 i2 lim h1 hp ht
  · exact fun x hlate => enqueueItem_pfifo n.queue x hord hlate

/-- C1 witness: two equal-priority single-task gangs enqueued at ticks 0 and
1 are returned by successive `DequeueGangList 1` calls in enqueue order. -/
theorem c1_priority_fifo_order_witness :
    DequeueGangList treeC1 ("respool11") 1 = .ok ([[task1C1]], treeC1mid) ∧
    DequeueGangList treeC1mid ("respool11") 1 = .ok ([[task2C1]], treeC1done)
    := by
  have h1 := c1_priority_fifo_order treeC1 ("respool11")
    (leafC1 [item1C1, item2C1]) 1 item1C1 item2C1 (by decide) (by decide)
    (by decide) (by decide) (by decide) (by decide) (by decide) (by decide)
  have h2 := c1_priority_fifo_order treeC1mid ("respool11")
    (leafC1 [item2C1]) 1 item2C1
    { item2C1 with enqueueTime := 2 } (by decide) (by decide)
    (by decide) (by decide) (by decide) (by decide) (by decide) (by decide)
  exact ⟨h1.1.trans (congrArg Except.ok (by decide)),
    h2.1.trans (congrArg Except.ok (by decide))⟩

end Respool

namespace Respool

theorem lookupPool_setPool_self :
    ∀ (ps : List (String × PoolNode)) (id : String) (v w : PoolNode),
      lookupPool ps id = some w → lookupPool (setPool ps id v) id = some v := by
  intro ps
  induction ps with
  | nil => intro id v w h; simp [lookupPool] at h
  | cons p rest ih =>
    intro id v w h
    obtain ⟨k, u⟩ := p
    by_cases hk : k = id
    · simp [setPool, lookupPool, hk]
    · simp only [lookupPool, if_neg hk] at h
      simp only [setPool, if_neg hk, lookupPool]
      exact ih id v w h

theorem lookupPool_setPool_ne :
    ∀ (ps : List (String × PoolNode)) (id k : String) (v : PoolNode),
      k ≠ id → lookupPool (setPool ps id v) k = lookupPool ps k := by
  intro ps
  induction ps with
  | nil => intro id k v _; simp [setPool]
  | cons p rest ih =>
    intro id k v hk
    obtain ⟨k0, u⟩ := p
    by_cases h0 : k0 = id
    · subst h0
      simp only [setPool, if_pos rfl, lookupPool]
      rw [if_neg (fun hc => hk hc.symm), if_neg (fun hc => hk hc.symm)]
    · simp only [setPool, if_neg h0, lookupPool]
      by_cases h1 : k0 = k
      · rw [if_pos h1, if_pos h1]
      · rw [if_neg h1, if_neg h1]
        exact ih id k v hk

theorem setPool_self :
    ∀ (ps : List (String × PoolNode)) (id : String) (v : PoolNode),
      lookupPool ps id = some v → setPool ps id v = ps := by
  intro ps
  induction ps with
  | nil => intro id v h; simp [lookupPool] at h
  | cons p rest ih =>
    intro id v h
    obtain ⟨k, u⟩ := p
    by_cases hk : k = id
    · simp only [lookupPool, if_pos hk, Option.some.injEq] at h
      simp [setPool, hk, h]
    · simp only [lookupPool, if_neg hk] at h
      simp [setPool, hk, ih id v h]

theorem lookupPool_append_some :
    ∀ (ps qs : List (String × PoolNode)) (k : String) (v : PoolNode),
      lookupPool ps k = some v → lookupPool (ps ++ qs) k = some v := by
  intro ps
  induction ps with
  | nil => intro qs k v h; simp [lookupPool] at h
  | cons p rest ih =>
    intro qs k v h
    obtain ⟨k0, u⟩ := p
    by_cases h0 : k0 = k
    · simp only [lookupPool, if_pos h0] at h
      simp [lookupPool, h0, h]
    · simp only [lookupPool, if_neg h0] at h
      simp only [List.cons_append, lookupPool, if_neg h0]
      exact ih qs k v h

theorem lookupPool_append_none :
    ∀ (ps qs : List (String × PoolNode)) (k : String),
      lookupPool ps k = none → lookupPool (ps ++ qs) k = lookupPool qs k := by
  intro ps
  induction ps with
  | nil => intro qs k _; simp
  | cons p rest ih =>
    intro qs k h
    obtain ⟨k0, u⟩ := p
    by_cases h0 : k0 = k
    · simp [lookupPool, if_pos h0] at h
    · simp only [lookupPool, if_neg h0] at h
      simp only [List.cons_append, lookupPool, if_neg h0]
      exact ih qs k h

theorem foldl_reservation_congr (t t2 : Tree) (k : String)
    (cs : List String)
    (h : ∀ c ∈ cs, poolReservation t2 c k = poolReservation t c k) :
    ∀ acc : Int,
      cs.foldl (fun acc c => acc + poolReservation t2 c k) acc =
        cs.foldl (fun acc c => acc + poolReservation t c k) acc := by
  induction cs with
  | nil => intro acc; rfl
  | cons c rest ih =>
    intro acc
    simp only [List.foldl_cons]
    rw [h c (List.mem_cons_self c rest)]
    exact ih (fun x hx => h x (List.mem_cons_of_mem c hx)) _

theorem reservationsOk_of (t t2 : Tree) (pid id : String)
    (cfg : ResPoolConfig) (pnode pnode2 : PoolNode)
    (hcfg : pnode2.config = pnode.config)
    (hch : pnode2.children.filter (fun c => c ≠ id) =
      pnode.children.filter (fun c => c ≠ id))
    (hres : ∀ c, c ≠ id → ∀ k, poolReservation t2 c k = poolReservation t c k)
    (h : reservationsOk t pid id cfg pnode = true) :
    reservationsOk t2 pid id cfg pnode2 = true := by
  rw [reservationsOk] at h ⊢
  by_cases hr : pid = RootResPoolID
  · rw [if_pos hr]
  · rw [if_neg hr] at h ⊢
    rw [List.all_eq_true] at h ⊢
    intro k hk
    have h0 := h k hk
    rw [decide_eq_true_eq] at h0 ⊢
    rw [hch, hcfg]
    rw [foldl_reservation_congr t t2 k _ ?_]
    · exact h0
    · intro c hc
      exact hres c (of_decide_eq_true (List.mem_filter.mp hc).2) k

end Respool

namespace Respool

/-- C9: `Upsert` is idempotent on the tree — when `Upsert(id, cfg)` succeeds
and produces a tree, repeating the same upsert on that tree succeeds and
leaves it unchanged. -/
theorem c9_upsert_idempotent (t t2 : Tree) (id : String)
    (cfg : ResPoolConfig) (h : Upsert t id cfg = .ok t2) :
    Upsert t2 id cfg = .ok t2 := by
  rw [Upsert] at h
  by_cases hroot : id = RootResPoolID
  · rw [if_pos hroot] at h; exact absurd h (by simp)
  rw [if_neg hroot] at h
  by_cases hpol : cfg.policy ≠ some Policy.PriorityFIFO
  · rw [if_pos hpol] at h; exact absurd h (by simp)
  rw [if_neg hpol] at h
  cases hpar : cfg.parent with
  | none => simp only [hpar] at h; exact absurd h (by simp)
  | some pid =>
    simp only [hpar] at h
    by_cases hpid : pid = id
    · rw [if_pos hpid] at h; exact absurd h (by simp)
    rw [if_neg hpid] at h
    cases hgetp : getPool t pid with
    | none => simp only [hgetp] at h; exact absurd h (by simp)
    | some pnode =>
      simp only [hgetp] at h
      have hlp : lookupPool t.pools pid = some pnode := by
        rw [getPool] at hgetp; exact hgetp
      by_cases hres : reservationsOk t pid id cfg pnode = true
      · rw [if_pos hres] at h
        cases hgetid : getPool t id with
        | some n =>
          simp only [hgetid] at h
          have hln : lookupPool t.pools id = some n := by
            rw [getPool] at hgetid; exact hgetid
          simp only [Except.ok.injEq] at h
          subst h
          rw [Upsert, if_neg hroot, if_neg hpol]
          simp only [hpar]
          rw [if_neg hpid]
          have hget2p : getPool
              { t with pools := setPool t.pools id { n with config := cfg } }
              pid = some pnode := by
            rw [getPool]
            rw [lookupPool_setPool_ne t.pools id pid
              { n with config := cfg } hpid]
            exact hlp
          simp only [hget2p]
          have hresAll : ∀ c, c ≠ id → ∀ k,
              poolReservation
                { t with pools :=
                    setPool t.pools id { n with config := cfg } } c k =
              poolReservation t c k := by
            intro c hc k
            simp only [poolReservation, getPool]
            rw [lookupPool_setPool_ne t.pools id c { n with config := cfg } hc]
          have hres2 := reservationsOk_of t
            { t with pools := setPool t.pools id { n with config := cfg } }
            pid id cfg pnode pnode rfl rfl hresAll hres
          rw [if_pos hres2]
          have hgetid2 : getPool
              { t with pools := setPool t.pools id { n with config := cfg } }
              id = some { n with config := cfg } := by
            rw [getPool]
            exact lookupPool_setPool_self t.pools id
              { n with config := cfg } n hln
          simp only [hgetid2]
          have hsp := setPool_self
            (setPool t.pools id { n with config := cfg }) id
            { n with config := cfg } (by rw [getPool] at hgetid2; exact hgetid2)
          exact congrArg (fun ps => Except.ok (Tree.mk ps t.clock)) hsp
        | none =>
          simp only [hgetid] at h
          have hln : lookupPool t.pools id = none := by
            rw [getPool] at hgetid; exact hgetid
          simp only [Except.ok.injEq] at h
          subst h
          rw [Upsert, if_neg hroot, if_neg hpol]
          simp only [hpar]
          rw [if_neg hpid]
          have hnid : id ≠ pid := fun hcc => hpid hcc.symm
          have hget2p : getPool
              { t with pools :=
                  (setPool t.pools pid
                    { pnode with children := pnode.children ++ [id] } ++
                  [(id, newNode cfg)]) } pid =
              some { pnode with children := pnode.children ++ [id] } := by
            rw [getPool]
            exact lookupPool_append_some _ _ _ _
              (lookupPool_setPool_self t.pools pid
                { pnode with children := pnode.children ++ [id] } pnode hlp)
          simp only [hget2p]
          have hresAll : ∀ c, c ≠ id → ∀ k,
              poolReservation
                { t with pools :=
                    (setPool t.pools pid
                      { pnode with children := pnode.children ++ [id] } ++
                    [(id, newNode cfg)]) } c k =
              poolReservation t c k := by
            intro c hc k
            simp only [poolReservation, getPool]
            by_cases hcp : c = pid
            · subst hcp
              rw [lookupPool_append_some _ _ _ _
                (lookupPool_setPool_self t.pools c
                  { pnode with children := pnode.children ++ [id] } pnode hlp)]
              rw [hlp]
            · cases hc0 : lookupPool t.pools c with
              | some w =>
                have hw : lookupPool
                    (setPool t.pools pid
                      { pnode with children := pnode.children ++ [id] }) c =
                    some w := by
                  rw [lookupPool_setPool_ne _ _ _ _ hcp]; exact hc0
                rw [lookupPool_append_some _ _ _ _ hw]
              | none =>
                have hw : lookupPool
                    (setPool t.pools pid
                      { pnode with children := pnode.children ++ [id] }) c =
                    none := by
                  rw [lookupPool_setPool_ne _ _ _ _ hcp]; exact hc0
                rw [lookupPool_append_none _ _ _ hw]
                have hic : ¬ id = c := fun hcc => hc hcc.symm
                simp [lookupPool, hic]
          have hch : ({ pnode with children := pnode.children ++ [id] }
              : PoolNode).children.filter (fun c => c ≠ id) =
              pnode.children.filter (fun c => c ≠ id) := by
            simp [List.filter_append]
          have hres2 := reservationsOk_of t
            { t with pools :=
                (setPool t.pools pid
                  { pnode with children := pnode.children ++ [id] } ++
                [(id, newNode cfg)]) }
            pid id cfg pnode
            { pnode with children := pnode.children ++ [id] }
            rfl hch hresAll hres
          rw [if_pos hres2]
          have hgetid2 : getPool
              { t with pools :=
                  (setPool t.pools pid
                    { pnode with children := pnode.children ++ [id] } ++
                  [(id, newNode cfg)]) } id = some (newNode cfg) := by
            rw [getPool]
            have hw : lookupPool
                (setPool t.pools pid
                  { pnode with children := pnode.children ++ [id] }) id =
                none := by
              rw [lookupPool_setPool_ne _ _ _ _ hnid]; exact hln
            rw [lookupPool_append_none _ _ _ hw]
            simp [lookupPool]
          simp only [hgetid2]
          have hsp := setPool_self
            (setPool t.pools pid
              { pnode with children := pnode.children ++ [id] } ++
              [(id, newNode cfg)]) id (newNode cfg)
            (by rw [getPool] at hgetid2; exact hgetid2)
          exact congrArg (fun ps => Except.ok (Tree.mk ps t.clock)) hsp
      · rw [if_neg hres] at h; exact absurd h (by simp)

/-- C9 witness: upserting `respool2` under the root onto the fixture tree
yields `treeC9`, and repeating the same upsert leaves `treeC9` unchanged. -/
theorem c9_upsert_idempotent_witness :
    Upsert treeC9 ("respool2") cfgC9 = .ok treeC9 :=
  c9_upsert_idempotent treeC1 treeC9 ("respool2") cfgC9 (by decide)

end Respool

namespace Recovery

theorem mem_foldr_append {α β : Type} (f : α → List β) (l : List α)
    (a : α) (ha : a ∈ l) (x : β) (hx : x ∈ f a) :
    x ∈ l.foldr (fun a acc => f a ++ acc) [] := by
  induction l with
  | nil => simp at ha
  | cons b rest ih =>
    rcases List.mem_cons.mp ha with hab | harest
    · subst hab
      exact List.mem_append_left _ hx
    · exact List.mem_append_right _ (ih harest)

theorem mem_foldr_append_iff {α β : Type} (f : α → List β) (l : List α)
    (x : β) :
    x ∈ l.foldr (fun a acc => f a ++ acc) [] ↔ ∃ a ∈ l, x ∈ f a := by
  induction l with
  | nil => simp
  | cons b rest ih =>
    simp only [List.foldr_cons, List.mem_append, ih, List.mem_cons]
    constructor
    · rintro (hx | ⟨a, ha, hx⟩)
      · exact ⟨b, Or.inl rfl, hx⟩
      · exact ⟨a, Or.inr ha, hx⟩
    · rintro ⟨a, ha | ha, hx⟩
      · subst ha; exact Or.inl hx
      · exact Or.inr ⟨a, ha, hx⟩

theorem mem_gang_exists (j : JobRec) (g : List TaskKey) (x : TaskKey)
    (hg : g ∈ jobGangs j) (hx : x ∈ g) :
    ∃ t2 ∈ pendingTasks j, x = key j t2 := by
  rw [jobGangs] at hg
  by_cases hmin : j.minInstances > 1
  · rw [if_pos hmin] at hg
    by_cases hne : pendingTasks j = []
    · simp [hne] at hg
    · rw [if_neg hne] at hg
      rcases List.mem_singleton.mp hg with rfl
      obtain ⟨t2, ht2, rfl⟩ := List.mem_map.mp hx
      exact ⟨t2, ht2, rfl⟩
  · rw [if_neg hmin] at hg
    obtain ⟨t2, ht2, rfl⟩ := List.mem_map.mp hg
    rcases List.mem_singleton.mp hx with rfl
    exact ⟨t2, ht2, rfl⟩

theorem gang_exists_of_pending (j : JobRec) (task : TaskRec)
    (ht : task ∈ pendingTasks j) :
    ∃ g ∈ jobGangs j, key j task ∈ g := by
  rw [jobGangs]
  by_cases hmin : j.minInstances > 1
  · rw [if_pos hmin]
    have hne : pendingTasks j ≠ [] := List.ne_nil_of_mem ht
    rw [if_neg hne]
    exact ⟨(pendingTasks j).map (key j), List.mem_singleton.mpr rfl,
      List.mem_map_of_mem (key j) ht⟩
  · rw [if_neg hmin]
    exact ⟨[key j task], List.mem_map_of_mem _ ht, List.mem_singleton.mpr rfl⟩

/-- C3: recovery reconstructs tracker and queue state by task state — a
PENDING task is recorded in the tracker and re-enqueued (inside some gang)
into its owning leaf pool's pending queue, with one gang per job when the
job's minimum running instances exceed one; a RUNNING or LAUNCHED task is
recorded in the tracker but appears in no enqueued gang; a task in a
terminal state is not recovered at all. -/
theorem c3_recovery_state_partition (leaf : String → Bool)
    (jobs : List JobRec) (j : JobRec) (task : TaskRec)
    (hj : j ∈ jobs) (hleaf : leaf j.respoolId = true)
    (ht : task ∈ j.tasks)
    (hjnd : (jobs.map JobRec.jobId).Nodup)
    (htnd : ∀ j2 ∈ jobs, (j2.tasks.map TaskRec.instanceId).Nodup) :
    (task.state = .PENDING →
      key j task ∈ (recover leaf jobs).tracker ∧
      ∃ g, (j.respoolId, g) ∈ (recover leaf jobs).queued ∧ key j task ∈ g)
    ∧ (task.state = .RUNNING ∨ task.state = .LAUNCHED →
      key j task ∈ (recover leaf jobs).tracker ∧
      ∀ p g, (p, g) ∈ (recover leaf jobs).queued → key j task ∉ g)
    ∧ (Cached.IsPelotonStateTerminal task.state = true →
      key j task ∉ (recover leaf jobs).tracker ∧
      ∀ p g, (p, g) ∈ (recover leaf jobs).queued → key j task ∉ g)
    ∧ (j.minInstances > 1 →
      ∀ g1 ∈ jobGangs j, ∀ g2 ∈ jobGangs j, g1 = g2) := by
  have hkey_inj : ∀ j2 ∈ jobs, ∀ t2 ∈ j2.tasks,
      key j2 t2 = key j task → j2 = j ∧ t2 = task := by
    intro j2 hj2 t2 ht2 hk
    have hjid : j2.jobId = j.jobId := congrArg TaskKey.jobId hk
    have hjj : j2 = j := List.inj_on_of_nodup_map hjnd hj2 hj hjid
    subst hjj
    have hti : t2.instanceId = task.instanceId := congrArg TaskKey.instanceId hk
    exact ⟨rfl, List.inj_on_of_nodup_map (htnd j2 hj2) ht2 ht hti⟩
  have htracker_mem : ∀ x, x ∈ (recover leaf jobs).tracker ↔
      ∃ j2 ∈ jobs, x ∈ (if leaf j2.respoolId then recoverTrackerJob j2
        else []) :=
    fun x => mem_foldr_append_iff _ jobs x
  have hqueued_mem : ∀ x, x ∈ (recover leaf jobs).queued ↔
      ∃ j2 ∈ jobs, x ∈ (if leaf j2.respoolId then
        (jobGangs j2).map (fun g => (j2.respoolId, g)) else []) :=
    fun x => mem_foldr_append_iff _ jobs x
  have hnotqueued : recoveryAction task.state ≠ RecoveryAction.requeue →
      ∀ p g, (p, g) ∈ (recover leaf jobs).queued → key j task ∉ g := by
    intro hact p g hpg hmem
    rcases (hqueued_mem (p, g)).mp hpg with ⟨j2, hj2, hx⟩
    by_cases hl2 : leaf j2.respoolId = true
    · rw [if_pos hl2] at hx
      obtain ⟨g2, hg2, hpair⟩ := List.mem_map.mp hx
      have hgg : g2 = g := congrArg Prod.snd hpair
      subst hgg
      obtain ⟨t2, ht2p, hkk⟩ := mem_gang_exists j2 g2 (key j task) hg2 hmem
      have ht2 : t2 ∈ j2.tasks := List.mem_of_mem_filter ht2p
      obtain ⟨hjj, htt⟩ := hkey_inj j2 hj2 t2 ht2 hkk.symm
      subst hjj; subst htt
      have := (List.mem_filter.mp ht2p).2
      rw [decide_eq_true_eq] at this
      exact hact this
    · rw [if_neg hl2] at hx
      simp at hx
  refine ⟨?_, ?_, ?_, ?_⟩
  · intro hst
    have hpend : task ∈ pendingTasks j := by
      rw [pendingTasks, List.mem_filter]
      exact ⟨ht, by rw [hst]; rfl⟩
    have htr : task ∈ trackedTasks j := by
      rw [trackedTasks, List.mem_filter]
      refine ⟨ht, ?_⟩
      rw [hst]
      rfl
    constructor
    · exact mem_foldr_append _ jobs j hj _
        (by rw [if_pos hleaf]
            exact List.mem_map_of_mem (key j) htr)
    · obtain ⟨g, hg, hkg⟩ := gang_exists_of_pending j task hpend
      exact ⟨g, mem_foldr_append _ jobs j hj _
        (by rw [if_pos hleaf]
            exact List.mem_map_of_mem _ hg), hkg⟩
  · intro hst
    have htr : task ∈ trackedTasks j := by
      rw [trackedTasks, List.mem_filter]
      refine ⟨ht, ?_⟩
      rcases hst with hst | hst <;> rw [hst] <;> rfl
    refine ⟨mem_foldr_append _ jobs j hj _
      (by rw [if_pos hleaf]
          exact List.mem_map_of_mem (key j) htr), ?_⟩
    refine hnotqueued ?_
    rcases hst with hst | hst <;> rw [hst] <;> simp [recoveryAction]
  · intro hst
    have hact : recoveryAction task.state = RecoveryAction.skip := by
      cases hc : task.state <;> rw [hc] at hst <;>
        simp [Cached.IsPelotonStateTerminal] at hst <;> rfl
    constructor
    · intro hmem
      rcases (htracker_mem (key j task)).mp hmem with ⟨j2, hj2, hx⟩
      by_cases hl2 : leaf j2.respoolId = true
      · rw [if_pos hl2] at hx
        obtain ⟨t2, ht2t, hkk⟩ := List.mem_map.mp hx
        have ht2 : t2 ∈ j2.tasks := List.mem_of_mem_filter ht2t
        obtain ⟨hjj, htt⟩ := hkey_inj j2 hj2 t2 ht2 hkk
        subst hjj; subst htt
        have := (List.mem_filter.mp ht2t).2
        rw [decide_eq_true_eq] at this
        exact this hact
      · rw [if_neg hl2] at hx
        simp at hx
    · refine hnotqueued ?_
      rw [hact]
      intro hcon
      exact RecoveryAction.noConfusion hcon
  · intro hmin g1 hg1 g2 hg2
    rw [jobGangs, if_pos hmin] at hg1 hg2
    by_cases hne : pendingTasks j = []
    · rw [if_pos hne] at hg1
      simp at hg1
    · rw [if_neg hne] at hg1 hg2
      rw [List.mem_singleton.mp hg1, List.mem_singleton.mp hg2]

end Recovery

namespace Recovery

/-- C3 witness: on the fixture, the PENDING task of TestJob_1 is tracked and
enqueued in a gang for `respool21`, the RUNNING task of TestJob_2 is
tracked, and the SUCCEEDED task of TestJob_1 is not in the tracker. -/
theorem c3_recovery_state_partition_witness :
    (TaskKey.mk ("TestJob_1") 0 ∈ (recover leafC3 jobsC3).tracker ∧
      ∃ g, (("respool21" : String), g) ∈ (recover leafC3 jobsC3).queued ∧
        TaskKey.mk ("TestJob_1") 0 ∈ g) ∧
    TaskKey.mk ("TestJob_2") 0 ∈ (recover leafC3 jobsC3).tracker ∧
    TaskKey.mk ("TestJob_1") 3 ∉ (recover leafC3 jobsC3).tracker := by
  have h1 := c3_recovery_state_partition leafC3 jobsC3
    (jobC3 ("TestJob_1") 10 .PENDING) { instanceId := 0, state := .PENDING }
    (by decide) rfl (by decide) (by decide) (by decide)
  have h2 := c3_recovery_state_partition leafC3 jobsC3
    (jobC3 ("TestJob_2") 1 .RUNNING) { instanceId := 0, state := .RUNNING }
    (by decide) rfl (by decide) (by decide) (by decide)
  have h3 := c3_recovery_state_partition leafC3 jobsC3
    (jobC3 ("TestJob_1") 10 .PENDING) { instanceId := 3, state := .SUCCEEDED }
    (by decide) rfl (by decide) (by decide) (by decide)
  exact ⟨h1.1 rfl, (h2.2.1 (Or.inl rfl)).1, (h3.2.2.1 (by decide)).1⟩

end Recovery

namespace Placement

/-- C7 counterexample: an assignment holding a host whose deadline is not
exceeded (and with placement rounds to spare) lands in the retryable set,
not the assigned set, so the partition is not the claimed host/deadline
partition. -/
theorem c7_host_within_deadline_not_assigned :
    retryingAssignment.host.isSome = true ∧
    PastDeadline 10 retryingAssignment.task = false ∧
    filterAssignments 10 [retryingAssignment] =
      ([], [IncRounds retryingAssignment], []) := by decide

theorem IncRounds_host (a : Assignment) : (IncRounds a).host = a.host := rfl

theorem filterAssignments_eq (now : Nat) (l : List Assignment) :
    filterAssignments now l =
      ((l.map bump).filter
        (fun a => a.host.isSome &&
          (PastMaxRounds a.task || PastDeadline now a.task)),
       (l.map bump).filter
        (fun a => (a.host.isNone && !PastDeadline now a.task) ||
          (a.host.isSome &&
            !(PastMaxRounds a.task || PastDeadline now a.task))),
       (l.map bump).filter
        (fun a => a.host.isNone && PastDeadline now a.task)) := by
  induction l with
  | nil => rfl
  | cons a rest ih =>
    cases ha : a.host with
    | none =>
      simp only [filterAssignments, ha]
      split
      next hd => simp [bump, ha, List.filter_cons, ih, hd]
      next hd => simp [bump, ha, List.filter_cons, ih, hd]
    | some h0 =>
      simp only [filterAssignments, ha]
      split
      next hacc =>
        rw [Bool.or_eq_true] at hacc
        rcases hacc with h | h <;>
          simp [bump, ha, List.filter_cons, ih, IncRounds_host, h]
      next hacc =>
        simp only [Bool.or_eq_true, not_or, Bool.not_eq_true] at hacc
        simp [bump, ha, List.filter_cons, ih, IncRounds_host, hacc.1, hacc.2]

theorem filterAssignments_length (now : Nat) (l : List Assignment) :
    (filterAssignments now l).1.length +
      (filterAssignments now l).2.1.length +
      (filterAssignments now l).2.2.length = l.length := by
  induction l with
  | nil => rfl
  | cons a rest ih =>
    simp only [filterAssignments]
    cases a.host <;> dsimp only <;> split <;>
      simp only [List.length_cons] <;> omega

/-- C7 (amended): the end-of-round partition covers every assignment exactly
once (after charging one round to each host-holding assignment): assigned
are those with a host that are past their max rounds or past the deadline,
unassigned are those without a host past the deadline, and everything else
is retryable; the three sets are the filters of pairwise-exclusive
predicates and their sizes sum to the input size. -/
theorem c7_assignment_partition (now : Nat) (l : List Assignment) :
    filterAssignments now l =
      ((l.map bump).filter
        (fun a => a.host.isSome &&
          (PastMaxRounds a.task || PastDeadline now a.task)),
       (l.map bump).filter
        (fun a => (a.host.isNone && !PastDeadline now a.task) ||
          (a.host.isSome &&
            !(PastMaxRounds a.task || PastDeadline now a.task))),
       (l.map bump).filter
        (fun a => a.host.isNone && PastDeadline now a.task))
    ∧ (filterAssignments now l).1.length +
        (filterAssignments now l).2.1.length +
        (filterAssignments now l).2.2.length = l.length :=
  ⟨filterAssignments_eq now l, filterAssignments_length now l⟩

theorem mem_publishAssigned (l : List PAssign) (a : PAssign) (h : Nat)
    (ha : a ∈ l) (hh : a.host = some h) :
    mkPlacement a h ∈ publishAssigned l := by
  induction l with
  | nil => simp at ha
  | cons b rest ih =>
    rcases List.mem_cons.mp ha with hab | harest
    · subst hab
      simp only [publishAssigned, List.foldr_cons, hh]
      exact List.mem_cons_self _ _
    · cases hb : b.host with
      | some h2 =>
        simp only [publishAssigned, List.foldr_cons, hb]
        exact List.mem_cons_of_mem _ (ih harest)
      | none =>
        simp only [publishAssigned, List.foldr_cons, hb]
        exact ih harest

theorem roundExhausted_length (l : List PAssign) :
    (publishAssigned l).length + (enqueueUnassigned l).length = l.length := by
  induction l with
  | nil => rfl
  | cons a rest ih =>
    cases hh : a.host with
    | some h =>
      simp only [publishAssigned, List.foldr_cons, hh, enqueueUnassigned,
        List.filter_cons, List.length_cons] at ih ⊢
      simp only [hh, Option.isNone_some, Bool.false_eq_true, if_false]
      omega
    | none =>
      simp only [publishAssigned, List.foldr_cons, hh, enqueueUnassigned,
        List.filter_cons, List.length_cons] at ih ⊢
      simp only [hh, Option.isNone_none, if_true, List.map_cons,
        List.length_cons]
      omega

/-- C8: at round exhaustion every task that obtained a host is published as
a placement and every task without a host is enqueued back with the
failed-to-place-after-timeout reason (those two sets exhaust the
assignments); in particular the 25-task/10-host scenario ends with exactly
10 placements published and 15 tasks re-enqueued. -/
theorem c8_round_exhaustion (l : List PAssign) (a : PAssign) (h : Nat) :
    (a ∈ l → a.host = some h → mkPlacement a h ∈ (roundExhausted l).1)
    ∧ (a ∈ l → a.host = none →
        (a, EnqueueReason.failedToPlaceTaskAfterTimeout) ∈
          (roundExhausted l).2)
    ∧ (∀ p ∈ (roundExhausted l).2,
        p.2 = EnqueueReason.failedToPlaceTaskAfterTimeout)
    ∧ (roundExhausted l).1.length + (roundExhausted l).2.length = l.length
    ∧ ((roundExhausted placedC8).1.length = 10 ∧
        (roundExhausted placedC8).2.length = 15) := by
  refine ⟨?_, ?_, ?_, roundExhausted_length l, by decide⟩
  · intro ha hh
    exact mem_publishAssigned l a h ha hh
  · intro ha hh
    refine List.mem_map.mpr ⟨a, List.mem_filter.mpr ⟨ha, ?_⟩, rfl⟩
    rw [hh]
    rfl
  · intro p hp
    rcases List.mem_map.mp hp with ⟨x, _, rfl⟩
    rfl

/-- C8 witness: in the concrete scenario, task 0 (placed on host 0) is
published and task 10 (left without a host) is re-enqueued with the timeout
reason; the counts are 10 placed and 15 re-enqueued. -/
theorem c8_round_exhaustion_witness :
    mkPlacement { taskId := 0, demand := 5, host := some 0 } 0 ∈
      (roundExhausted placedC8).1 ∧
    ({ taskId := 10, demand := 5, host := none },
      EnqueueReason.failedToPlaceTaskAfterTimeout) ∈
      (roundExhausted placedC8).2 ∧
    (roundExhausted placedC8).1.length = 10 ∧
    (roundExhausted placedC8).2.length = 15 := by
  have h1 := c8_round_exhaustion placedC8
    { taskId := 0, demand := 5, host := some 0 } 0
  have h2 := c8_round_exhaustion placedC8
    { taskId := 10, demand := 5, host := none } 0
  exact ⟨h1.1 (by decide) rfl, h2.2.1 (by decide) rfl, h1.2.2.2.2⟩

end Placement
